import Mathlib

/-!
# Verification of the Droidwork VLA (Vision-Language-Action) subsystem

Shallow embedding of the VLA loop of this repository:
`executor.py` (`ActionType`, `Action.from_dict`, `Executor.execute`),
`perception.py` (`UIState`, `Perception.analyze_screenshot`,
`Perception._parse_vlm_response`), `planner.py` (`Planner.plan_next_action`,
`Planner._parse_llm_response`) and `vla_loop.py` (`VLAAgent.run`,
`AgentResult.to_dict`).

Python strings are modelled as Lean `String`/`List Char`; Python's
dynamically-typed JSON data (`dict`/`list`/`str`/`int`/`bool`/`None`) is
modelled by the inductive `JValue`.  Python exceptions are modelled with
`Except String`: a `.error` value is a raised exception carrying its text.
External effects (the ADB device, the VLM/LLM HTTP endpoints, wall-clock
time, the screenshot file) are inputs to the embedded functions; wall-clock
durations (`duration_ms`, `total_duration_ms`) are not modelled.
-/

namespace Droidwork

/-! ## Python string primitives -/

/-- `hasPre pre s`: `pre` is a leading segment of `s` (used to model scanning
for a substring, as Python's `str.split`/`in` do). -/
def hasPre : List Char → List Char → Bool
  | [], _ => true
  | _ :: _, [] => false
  | a :: as, b :: bs => a = b && hasPre as bs

/-- Python's `needle in hay` for strings: some suffix of `hay` starts with
`needle`. -/
def subIn (needle : List Char) : List Char → Bool
  | [] => needle.isEmpty
  | c :: rest => hasPre needle (c :: rest) || subIn needle rest

/-- Worker for Python `str.split(sep)`: scans left to right; on a match of
`sep` the accumulated chunk is emitted and the separator skipped.  `fuel`
bounds the recursion (callers pass the string length, which suffices since
every step consumes at least one character). -/
def pySplitGo (sep : List Char) : Nat → List Char → List Char → List (List Char)
  | 0, s, acc => [acc.reverse ++ s]
  | _ + 1, [], acc => [acc.reverse]
  | fuel + 1, c :: rest, acc =>
    match sep with
    | [] => [c :: rest]
    | s0 :: ss =>
      if hasPre (s0 :: ss) (c :: rest) then
        acc.reverse :: pySplitGo (s0 :: ss) fuel (rest.drop ss.length) []
      else
        pySplitGo (s0 :: ss) fuel rest (c :: acc)

/-- Python `s.split(sep)` for a non-empty separator `sep`. -/
def pySplit (sep s : List Char) : List (List Char) :=
  pySplitGo sep s.length s []

/-- The whitespace characters stripped by Python `str.strip()`. -/
def pyWs (c : Char) : Bool :=
  c = ' ' || c = '\t' || c = '\n' || c = '\r' || c = '\x0b' || c = '\x0c'

/-- Python `s.strip()` on `List Char`. -/
def pyStripL (s : List Char) : List Char :=
  ((s.dropWhile pyWs).reverse.dropWhile pyWs).reverse

/-- Python `s.strip()` on `String`. -/
def pyStrip (s : String) : String :=
  ⟨pyStripL s.data⟩

/-- Python `s.lower()` (the repository only lowercases ASCII labels). -/
def pyLower (s : String) : String :=
  ⟨s.data.map Char.toLower⟩

/-- Python `s.replace(" ", "_")`: single-character replacement is a
character-wise map. -/
def pyUnderscore (s : String) : String :=
  ⟨s.data.map fun c => if c = ' ' then '_' else c⟩

/-- Python `s[:n]` for `n ≥ 0`. -/
def pyTake (n : Nat) (s : String) : String :=
  ⟨s.data.take n⟩

/-! ## Python/JSON data model -/

/-- A parsed JSON value, as produced by Python's `json.loads`: the repository
passes these loosely-typed values around (`Dict[str, Any]` parameters,
`Action.params`, reasoning strings, tool-result envelopes). -/
inductive JValue where
  | null
  | bool (b : Bool)
  | num (n : Int)
  | str (s : String)
  | arr (xs : List JValue)
  | obj (fields : List (String × JValue))

/-- Python `d.get(key)` on a dict: `none` models a missing key. -/
def dictGet (fields : List (String × JValue)) (key : String) : Option JValue :=
  (fields.find? fun p => p.1 = key).map fun p => p.2

/-- Python `d.get(key, default)`. -/
def dictGetD (fields : List (String × JValue)) (key : String) (dflt : JValue) : JValue :=
  (dictGet fields key).getD dflt

/-- Python truthiness of a JSON value (`if not success: ...`). -/
def pyTruthy : JValue → Bool
  | .null => false
  | .bool b => b
  | .num n => n ≠ 0
  | .str s => s ≠ ""
  | .arr xs => !xs.isEmpty
  | .obj fs => !fs.isEmpty

/-- Python `str(v)` of a parsed-JSON value, as used in the repository's
f-strings.  Nested containers are rendered in simplified form (the
repository only ever renders scalars this way). -/
def pyStrRender : JValue → String
  | .null => "None"
  | .bool true => "True"
  | .bool false => "False"
  | .num n => toString n
  | .str s => s
  | .arr _ => "[...]"
  | .obj _ => "<dict>"

/-- Python `int(v)`: succeeds on ints and integer-looking strings and on
booleans, raises `ValueError`/`TypeError` otherwise (floats are not
modelled; the planner's JSON is parsed by `jsonLoads`, which produces
integers only). -/
def pyToInt : JValue → Except String Int
  | .num n => .ok n
  | .bool b => .ok (if b then 1 else 0)
  | .str s =>
    match s.toInt? with
    | some n => .ok n
    | none => .error ("ValueError: invalid literal for int(): " ++ s)
  | .null => .error "TypeError: int() argument must not be None"
  | .arr _ => .error "TypeError: int() argument must not be a list"
  | .obj _ => .error "TypeError: int() argument must not be a dict"

/-- Python `float(v)` used only for its possible failure by
`Executor._execute_wait` (`time.sleep(float(seconds))`); the slept duration
itself is wall-clock and not modelled. -/
def pyFloatOk : JValue → Except String Unit
  | .num _ => .ok ()
  | .bool _ => .ok ()
  | .str s =>
    match s.toInt? with
    | some _ => .ok ()
    | none => .error ("ValueError: could not convert string to float: " ++ s)
  | .null => .error "TypeError: float() argument must not be None"
  | .arr _ => .error "TypeError: float() argument must not be a list"
  | .obj _ => .error "TypeError: float() argument must not be a dict"

/-- Python slicing `v[:n]` applied for its possible failure: strings and
lists slice fine, every other value raises a `TypeError` (for dicts the
message is about an unhashable slice; one message stands for both). -/
def sliceCheck : JValue → Except String Unit
  | .str _ => .ok ()
  | .arr _ => .ok ()
  | _ => .error "TypeError: object is not subscriptable"

/-! ## `json.loads`

A parser for the JSON subset exchanged in this repository: objects, arrays,
double-quoted strings with the basic escapes, integers, booleans and
`null`.  `none` models `json.JSONDecodeError`. -/

/-- Skip JSON whitespace. -/
def jsonWs : List Char → List Char
  | c :: r => if c = ' ' || c = '\n' || c = '\t' || c = '\r' then jsonWs r else c :: r
  | [] => []

/-- Parse the body of a JSON string literal after the opening quote,
returning the content and the remaining input. -/
def jsonStringBody : List Char → Option (List Char × List Char)
  | '"' :: r => some ([], r)
  | '\\' :: e :: r =>
    (match e with
     | '"' => some '"'
     | '\\' => some '\\'
     | '/' => some '/'
     | 'n' => some '\n'
     | 't' => some '\t'
     | 'r' => some '\r'
     | _ => none).bind fun c =>
      (jsonStringBody r).map fun (body, rest) => (c :: body, rest)
  | c :: r => (jsonStringBody r).map fun (body, rest) => (c :: body, rest)
  | [] => none

/-- Parse a run of decimal digits. -/
def jsonDigits : List Char → Nat → List Char → (List Char × Nat × List Char)
  | acc, n, c :: r =>
    if c.isDigit then jsonDigits (c :: acc) (n * 10 + (c.toNat - 48)) r
    else (acc, n, c :: r)
  | acc, n, [] => (acc, n, [])

mutual

/-- Parse one JSON value. -/
def jsonVal : Nat → List Char → Option (JValue × List Char)
  | 0, _ => none
  | fuel + 1, s =>
    match jsonWs s with
    | '"' :: r => (jsonStringBody r).map fun (cs, rest) => (JValue.str ⟨cs⟩, rest)
    | 't' :: 'r' :: 'u' :: 'e' :: r => some (.bool true, r)
    | 'f' :: 'a' :: 'l' :: 's' :: 'e' :: r => some (.bool false, r)
    | 'n' :: 'u' :: 'l' :: 'l' :: r => some (.null, r)
    | '-' :: r =>
      match jsonDigits [] 0 r with
      | ([], _, _) => none
      | (_ :: _, n, rest) => some (.num (-(n : Int)), rest)
    | '[' :: r =>
      (match jsonWs r with
       | ']' :: r2 => some (.arr [], r2)
       | _ => (jsonItems fuel (jsonWs r)).map fun p => (.arr p.1, p.2))
    | '{' :: r =>
      (match jsonWs r with
       | '}' :: r2 => some (.obj [], r2)
       | _ => (jsonFields fuel (jsonWs r)).map fun p => (.obj p.1, p.2))
    | c :: r =>
      if c.isDigit then
        match jsonDigits [] 0 (c :: r) with
        | ([], _, _) => none
        | (_ :: _, n, rest) => some (.num (n : Int), rest)
      else none
    | [] => none

/-- Parse the comma-separated elements of a non-empty JSON array, up to and
including the closing bracket. -/
def jsonItems : Nat → List Char → Option (List JValue × List Char)
  | 0, _ => none
  | fuel + 1, s =>
    (jsonVal fuel s).bind fun (v, r) =>
      match jsonWs r with
      | ',' :: r2 => (jsonItems fuel r2).map fun p => (v :: p.1, p.2)
      | ']' :: r2 => some ([v], r2)
      | _ => none

/-- Parse the comma-separated members of a non-empty JSON object, up to and
including the closing brace. -/
def jsonFields : Nat → List Char → Option (List (String × JValue) × List Char)
  | 0, _ => none
  | fuel + 1, s =>
    match jsonWs s with
    | '"' :: r =>
      (jsonStringBody r).bind fun (key, r2) =>
        match jsonWs r2 with
        | ':' :: r3 =>
          (jsonVal fuel r3).bind fun (v, r4) =>
            match jsonWs r4 with
            | ',' :: r5 => (jsonFields fuel r5).map fun p => ((⟨key⟩, v) :: p.1, p.2)
            | '}' :: r5 => some ([(⟨key⟩, v)], r5)
            | _ => none
        | _ => none
    | _ => none

end

/-- Python `json.loads(s)`: `none` is a raised `json.JSONDecodeError`. -/
def jsonLoads (s : String) : Option JValue :=
  match jsonVal (s.length + 1) s.data with
  | some (v, rest) => if jsonWs rest = [] then some v else none
  | none => none

/-! ## Action vocabulary (`executor.py`) -/

/-- `ActionType` (executor.py:24): the closed set of supported actions. -/
inductive ActionType where
  | tap | long_press | swipe | drag | input_text | press_key | wait
  | scroll_up | scroll_down | go_back | go_home | open_app
  | task_complete | task_failed
  deriving DecidableEq

/-- The `.value` string of each `ActionType` member. -/
def ActionType.value : ActionType → String
  | .tap => "tap"
  | .long_press => "long_press"
  | .swipe => "swipe"
  | .drag => "drag"
  | .input_text => "input_text"
  | .press_key => "press_key"
  | .wait => "wait"
  | .scroll_up => "scroll_up"
  | .scroll_down => "scroll_down"
  | .go_back => "go_back"
  | .go_home => "go_home"
  | .open_app => "open_app"
  | .task_complete => "task_complete"
  | .task_failed => "task_failed"

/-- `Action` (executor.py:42): a tagged action with loosely-typed `params`
and `reasoning` (Python does not enforce the dataclass field types, so both
are modelled as raw `JValue`s). -/
structure Action where
  action_type : ActionType
  params : JValue
  reasoning : JValue

/-- The `action_map` synonym table of `Action.from_dict` (executor.py:55). -/
def actionMap : List (String × ActionType) :=
  [("tap", .tap),
   ("long_press", .long_press),
   ("swipe", .swipe),
   ("drag", .drag),
   ("input_text", .input_text),
   ("input", .input_text),
   ("type", .input_text),
   ("press_key", .press_key),
   ("keypress", .press_key),
   ("wait", .wait),
   ("scroll_up", .scroll_up),
   ("scroll_down", .scroll_down),
   ("go_back", .go_back),
   ("back", .go_back),
   ("go_home", .go_home),
   ("home", .go_home),
   ("open_app", .open_app),
   ("launch_app", .open_app),
   ("task_complete", .task_complete),
   ("done", .task_complete),
   ("complete", .task_complete),
   ("task_failed", .task_failed),
   ("fail", .task_failed),
   ("failed", .task_failed)]

/-- `action_map.get(action_str, ActionType.WAIT)` (executor.py:82). -/
def actionMapGet (label : String) : ActionType :=
  ((actionMap.find? fun p => p.1 = label).map fun p => p.2).getD .wait

/-- The label normalization `data.get("action", "").lower().replace(" ", "_")`
of `Action.from_dict` (executor.py:52). -/
def normalizeLabel (label : String) : String :=
  pyUnderscore (pyLower label)

/-- `Action.from_dict` (executor.py:49): builds an `Action` from a parsed
JSON value.  A non-dict argument or a non-string `"action"` value raises
(`AttributeError`), as in Python. -/
def Action.fromDict : JValue → Except String Action
  | .obj fields =>
    match dictGetD fields "action" (.str "") with
    | .str label =>
      .ok { action_type := actionMapGet (normalizeLabel label),
            params := dictGetD fields "params" (.obj []),
            reasoning := dictGetD fields "reasoning" (.str "") }
    | _ => .error "AttributeError: object has no attribute lower"
  | _ => .error "AttributeError: object has no attribute get"

/-! ## Executor (`executor.py`) -/

/-- `ActionResult` (executor.py:91).  The `success` field is whatever value
`_parse_tool_result` extracted from the tool's JSON envelope (Python does
not coerce it to `bool`), so it is a raw `JValue`; `duration_ms` is
wall-clock and not modelled. -/
structure ActionResult where
  success : JValue
  action : Action
  message : JValue
  error : Option String

/-- One `android_tools` invocation: the tool's name and the keyword payload
passed to `.invoke`. -/
structure ToolCall where
  tool : String
  args : List (String × JValue)

/-- The device/tool boundary: maps an invocation to either its string result
or a raised exception.  All 33 ADB tools are external to the VLA subsystem. -/
def DeviceEnv : Type := ToolCall → Except String String

/-- `Executor._parse_tool_result` (executor.py:203): parses the JSON
envelope; a non-JSON response is treated as a successful free-text result.
A non-dict JSON value raises (`data.get` on a list/str/int). -/
def parseToolResult (result : String) : Except String (JValue × JValue) :=
  match jsonLoads result with
  | none => .ok (.bool true, .str result)
  | some (.obj fields) =>
    let success := dictGetD fields "success" (.bool false)
    let message := if pyTruthy success then JValue.str "OK"
                   else dictGetD fields "error" (.str "OK")
    .ok (success, message)
  | some _ => .error "AttributeError: object has no attribute get"

/-- `action.params.get(...)`: raises `AttributeError` unless `params` is a
dict. -/
def paramsDict : JValue → Except String (List (String × JValue))
  | .obj fields => .ok fields
  | _ => .error "AttributeError: object has no attribute get"

/-- Issue one tool invocation and parse its result (the shared tail of every
`_execute_*` helper). -/
def invokeTool (dev : DeviceEnv) (call : ToolCall) :
    List ToolCall × Except String (JValue × JValue) :=
  match dev call with
  | .error e => ([call], .error e)
  | .ok s => ([call], parseToolResult s)

/-- `Executor._execute_tap` (executor.py:213). -/
def executeTap (dev : DeviceEnv) (serial : JValue) (params : JValue) :
    List ToolCall × Except String (JValue × JValue) :=
  match paramsDict params with
  | .error e => ([], .error e)
  | .ok fs =>
    match pyToInt (dictGetD fs "x" (.num 0)), pyToInt (dictGetD fs "y" (.num 0)) with
    | .ok x, .ok y =>
      invokeTool dev ⟨"tap", [("x", .num x), ("y", .num y), ("device_serial", serial)]⟩
    | .error e, _ => ([], .error e)
    | _, .error e => ([], .error e)

/-- `Executor._execute_long_press` (executor.py:225). -/
def executeLongPress (dev : DeviceEnv) (serial : JValue) (params : JValue) :
    List ToolCall × Except String (JValue × JValue) :=
  match paramsDict params with
  | .error e => ([], .error e)
  | .ok fs =>
    match pyToInt (dictGetD fs "x" (.num 0)), pyToInt (dictGetD fs "y" (.num 0)),
          pyToInt (dictGetD fs "duration_ms" (.num 1000)) with
    | .ok x, .ok y, .ok d =>
      invokeTool dev ⟨"long_press",
        [("x", .num x), ("y", .num y), ("duration_ms", .num d), ("device_serial", serial)]⟩
    | .error e, _, _ => ([], .error e)
    | _, .error e, _ => ([], .error e)
    | _, _, .error e => ([], .error e)

/-- The coordinate extraction shared by swipe and drag:
`params.get("start_x", params.get("x1", 0))` etc. (executor.py:242). -/
def swipeCoord (fs : List (String × JValue)) (primary alt : String) : JValue :=
  dictGetD fs primary (dictGetD fs alt (.num 0))

/-- `Executor._execute_swipe` (executor.py:239) and
`Executor._execute_drag` (executor.py:251), which differ only in tool name
and default duration. -/
def executeSwipeLike (tool : String) (dflt : Int) (dev : DeviceEnv) (serial : JValue)
    (params : JValue) : List ToolCall × Except String (JValue × JValue) :=
  match paramsDict params with
  | .error e => ([], .error e)
  | .ok fs =>
    match pyToInt (swipeCoord fs "start_x" "x1"), pyToInt (swipeCoord fs "start_y" "y1"),
          pyToInt (swipeCoord fs "end_x" "x2"), pyToInt (swipeCoord fs "end_y" "y2"),
          pyToInt (dictGetD fs "duration_ms" (.num dflt)) with
    | .ok sx, .ok sy, .ok ex, .ok ey, .ok d =>
      invokeTool dev ⟨tool,
        [("start_x", .num sx), ("start_y", .num sy), ("end_x", .num ex), ("end_y", .num ey),
         ("duration_ms", .num d), ("device_serial", serial)]⟩
    | .error e, _, _, _, _ => ([], .error e)
    | _, .error e, _, _, _ => ([], .error e)
    | _, _, .error e, _, _ => ([], .error e)
    | _, _, _, .error e, _ => ([], .error e)
    | _, _, _, _, .error e => ([], .error e)

/-- `Executor._execute_input_text` (executor.py:263). -/
def executeInputText (dev : DeviceEnv) (serial : JValue) (params : JValue) :
    List ToolCall × Except String (JValue × JValue) :=
  match paramsDict params with
  | .error e => ([], .error e)
  | .ok fs =>
    let text := dictGetD fs "text" (.str "")
    invokeTool dev ⟨"input_text", [("text", .str (pyStrRender text)), ("device_serial", serial)]⟩

/-- The `key_map` of `Executor._execute_press_key` (executor.py:278). -/
def keyMap : List (String × String) :=
  [("back", "KEYCODE_BACK"),
   ("home", "KEYCODE_HOME"),
   ("enter", "KEYCODE_ENTER"),
   ("delete", "KEYCODE_DEL"),
   ("tab", "KEYCODE_TAB"),
   ("menu", "KEYCODE_MENU"),
   ("search", "KEYCODE_SEARCH"),
   ("power", "KEYCODE_POWER"),
   ("volume_up", "KEYCODE_VOLUME_UP"),
   ("volume_down", "KEYCODE_VOLUME_DOWN")]

/-- `Executor._execute_press_key` (executor.py:273). -/
def executePressKey (dev : DeviceEnv) (serial : JValue) (params : JValue) :
    List ToolCall × Except String (JValue × JValue) :=
  match paramsDict params with
  | .error e => ([], .error e)
  | .ok fs =>
    let key := dictGetD fs "key" (dictGetD fs "keycode" (.str ""))
    let keyStr := pyStrRender key
    let keycode := ((keyMap.find? fun p => p.1 = pyLower keyStr).map fun p => p.2).getD keyStr
    invokeTool dev ⟨"press_key", [("keycode", .str keycode), ("device_serial", serial)]⟩

/-- `Executor._execute_wait` (executor.py:299): a pure sleep (wall-clock not
modelled); `float(seconds)` may still raise on malformed params. -/
def executeWait (params : JValue) : List ToolCall × Except String (JValue × JValue) :=
  match paramsDict params with
  | .error e => ([], .error e)
  | .ok fs =>
    let seconds := dictGetD fs "seconds" (dictGetD fs "duration" (.num 1))
    match pyFloatOk seconds with
    | .error e => ([], .error e)
    | .ok _ =>
      ([], .ok (.bool true, .str ("Waited " ++ pyStrRender seconds ++ " seconds")))

/-- `Executor._execute_scroll_up` (executor.py:305) and
`Executor._execute_scroll_down` (executor.py:322): synthesized swipes with
screen-relative defaults (`startYDflt`/`endYDflt` are 1500/500 for
scroll-up and 500/1500 for scroll-down). -/
def executeScroll (startYDflt endYDflt : Int) (dev : DeviceEnv) (serial : JValue)
    (params : JValue) : List ToolCall × Except String (JValue × JValue) :=
  match paramsDict params with
  | .error e => ([], .error e)
  | .ok fs =>
    match pyToInt (dictGetD fs "x" (.num 540)), pyToInt (dictGetD fs "start_y" (.num startYDflt)),
          pyToInt (dictGetD fs "end_y" (.num endYDflt)) with
    | .ok sx, .ok sy, .ok ey =>
      invokeTool dev ⟨"swipe",
        [("start_x", .num sx), ("start_y", .num sy), ("end_x", .num sx), ("end_y", .num ey),
         ("duration_ms", .num 300), ("device_serial", serial)]⟩
    | .error e, _, _ => ([], .error e)
    | _, .error e, _ => ([], .error e)
    | _, _, .error e => ([], .error e)

/-- `Executor._execute_go_back` (executor.py:338) /
`_execute_go_home` (executor.py:346): fixed key presses. -/
def executeFixedKey (keycode : String) (dev : DeviceEnv) (serial : JValue) :
    List ToolCall × Except String (JValue × JValue) :=
  invokeTool dev ⟨"press_key", [("keycode", .str keycode), ("device_serial", serial)]⟩

/-- `Executor._execute_open_app` (executor.py:354): the package name is
passed through unconverted. -/
def executeOpenApp (dev : DeviceEnv) (serial : JValue) (params : JValue) :
    List ToolCall × Except String (JValue × JValue) :=
  match paramsDict params with
  | .error e => ([], .error e)
  | .ok fs =>
    let package := dictGetD fs "package" (dictGetD fs "app" (.str ""))
    invokeTool dev ⟨"start_app", [("package_name", package), ("device_serial", serial)]⟩

/-- The tail of `Executor.execute` (executor.py:184): wrap the dispatched
`(success, message)` pair into an `ActionResult`; the `except` arm converts
a raised exception into a failed result. -/
def finishExecute (action : Action) :
    List ToolCall × Except String (JValue × JValue) → ActionResult × List ToolCall
  | (trace, .ok (success, message)) =>
    ({ success := success, action := action, message := message, error := none }, trace)
  | (trace, .error e) =>
    ({ success := .bool false, action := action, message := .str "Execution failed",
       error := some e }, trace)

/-- `Executor.execute` (executor.py:140): dispatches on the action type,
wraps the `(success, message)` pair into an `ActionResult`, and converts
any raised exception into a failed `ActionResult` (nothing propagates).
`TASK_COMPLETE` / `TASK_FAILED` perform no tool invocation.  The returned
trace lists the tool invocations issued.  The Python `else` arm
("Unknown action type") is unreachable: the dispatch covers every enum
member. -/
def Executor.execute (dev : DeviceEnv) (serial : JValue) (action : Action) :
    ActionResult × List ToolCall :=
  finishExecute action <|
    match action.action_type with
    | .tap => executeTap dev serial action.params
    | .long_press => executeLongPress dev serial action.params
    | .swipe => executeSwipeLike "swipe" 300 dev serial action.params
    | .drag => executeSwipeLike "drag" 1000 dev serial action.params
    | .input_text => executeInputText dev serial action.params
    | .press_key => executePressKey dev serial action.params
    | .wait => executeWait action.params
    | .scroll_up => executeScroll 1500 500 dev serial action.params
    | .scroll_down => executeScroll 500 1500 dev serial action.params
    | .go_back => executeFixedKey "KEYCODE_BACK" dev serial
    | .go_home => executeFixedKey "KEYCODE_HOME" dev serial
    | .open_app => executeOpenApp dev serial action.params
    | .task_complete => ([], .ok (.bool true, .str "Task marked as complete"))
    | .task_failed => ([], .ok (.bool false, .str "Task marked as failed"))

/-! ## Code-fence stripping

The block `if "```json" in response: json_str = response.split("```json")[1]
.split("```")[0] elif "```" in response: ...` appears verbatim in
`Planner._parse_llm_response` (planner.py:238), `Planner.evaluate_completion`
(planner.py:333) and `Perception._parse_vlm_response` (perception.py:294);
it is embedded once here. -/

/-- Strip surrounding code-fence markup from a model response. -/
def stripCodeFences (response : String) : String :=
  if subIn "```json".data response.data then
    ⟨(pySplit "```".data ((pySplit "```json".data response.data).getD 1 [])).getD 0 []⟩
  else if subIn "```".data response.data then
    ⟨(pySplit "```".data ((pySplit "```".data response.data).getD 1 [])).getD 0 []⟩
  else
    response

/-! ## Perception (`perception.py`) -/

/-- `UIElement` (perception.py:30).  Fields are raw `JValue`s: Python's
`elem.get(...)` defaults are applied but the values themselves are not
type-checked. -/
structure UIElement where
  element_type : JValue
  text : JValue
  x : JValue
  y : JValue
  width : JValue
  height : JValue
  clickable : JValue
  description : JValue

/-- `UIState` (perception.py:43).  `error_message`/`width`-like optional
fields use `JValue.null` for Python `None`. -/
structure UIState where
  app_name : JValue
  screen_description : JValue
  elements : List UIElement
  error_message : JValue
  popup_visible : JValue
  available_actions : JValue
  raw_response : Option String

/-- One element of the VLM's `elements` array (perception.py:305): raises
`AttributeError` unless it is a dict. -/
def parseElem : JValue → Except String UIElement
  | .obj e =>
    .ok { element_type := dictGetD e "type" (.str "unknown"),
          text := dictGetD e "text" (.str ""),
          x := dictGetD e "x" (.num 0),
          y := dictGetD e "y" (.num 0),
          width := (dictGet e "width").getD .null,
          height := (dictGet e "height").getD .null,
          clickable := dictGetD e "clickable" (.bool true),
          description := (dictGet e "description").getD .null }
  | _ => .error "AttributeError: object has no attribute get"

/-- The `for elem in data.get("elements", [])` loop (perception.py:304).
Iterating a non-list value raises (iteration of an empty dict or string,
which Python would accept vacuously, is simplified to the same raise; no
claim depends on that corner). -/
def parseElements : JValue → Except String (List UIElement)
  | .arr xs => xs.mapM parseElem
  | _ => .error "TypeError: object is not iterable"

/-- `Perception._parse_vlm_response` (perception.py:289): strips fences,
JSON-decodes, and builds a `UIState`; on `JSONDecodeError` builds a
degraded `UIState` from the first 500 characters.  Errors other than
`JSONDecodeError` (e.g. the decoded value not being a dict) propagate as
raised exceptions. -/
def parseVLMResponse (response : String) : Except String UIState :=
  match jsonLoads (pyStrip (stripCodeFences response)) with
  | none =>
    .ok { app_name := .str "Unknown",
          screen_description := .str (pyTake 500 response),
          elements := [],
          error_message := .str "Failed to parse structured response",
          popup_visible := .bool false,
          available_actions := .arr [],
          raw_response := some response }
  | some (.obj fields) =>
    match parseElements (dictGetD fields "elements" (.arr [])) with
    | .error e => .error e
    | .ok elements =>
      .ok { app_name := dictGetD fields "app_name" (.str "Unknown"),
            screen_description := dictGetD fields "screen_description" (.str ""),
            elements := elements,
            error_message := (dictGet fields "error_message").getD .null,
            popup_visible := dictGetD fields "popup_visible" (.bool false),
            available_actions := dictGetD fields "available_actions" (.arr []),
            raw_response := some response }
  | some _ => .error "AttributeError: object has no attribute get"

/-- Outcome of the one VLM HTTP round trip inside `analyze_screenshot`'s
`try` block: a `requests` timeout, any other raised failure
(`raise_for_status`, connection errors, a malformed body in
`response.json()` or the `choices` lookup) carrying the exception text, or
a successful response with its content string. -/
inductive VLMOutcome where
  | timeout
  | fails (msg : String)
  | responds (content : String)

/-- `Perception.analyze_screenshot` (perception.py:209).
`encode` is the outcome of `_encode_image_base64(screenshot_path)`
(perception.py:153), which runs *before* the `try` block: if opening or
re-encoding the image raises, the exception propagates to the caller.
Within the `try` block every failure is absorbed into an in-band `UIState`
(a raised parse error lands in the generic `except Exception` arm). -/
def analyzeScreenshot (encode : Except String Unit) (vlm : VLMOutcome) :
    Except String UIState :=
  match encode with
  | .error e => .error e
  | .ok _ =>
    match vlm with
    | .timeout =>
      .ok { app_name := .str "Unknown",
            screen_description := .str "VLM analysis timed out",
            elements := [],
            error_message := .str "Analysis timeout - screen may be complex",
            popup_visible := .bool false,
            available_actions := .arr [],
            raw_response := none }
    | .fails msg =>
      .ok { app_name := .str "Unknown",
            screen_description := .str ("VLM analysis failed: " ++ msg),
            elements := [],
            error_message := .str msg,
            popup_visible := .bool false,
            available_actions := .arr [],
            raw_response := none }
    | .responds content =>
      match parseVLMResponse content with
      | .ok ui => .ok ui
      | .error e =>
        .ok { app_name := .str "Unknown",
              screen_description := .str ("VLM analysis failed: " ++ e),
              elements := [],
              error_message := .str e,
              popup_visible := .bool false,
              available_actions := .arr [],
              raw_response := none }

/-- The `UIState.summary` property (perception.py:74):
`f"{app_name}: {screen_description[:100]}"`.  Slicing a value that is
neither a string nor a list raises. -/
def UIState.summary (u : UIState) : Except String String :=
  match u.screen_description with
  | .str s => .ok (pyStrRender u.app_name ++ ": " ++ pyTake 100 s)
  | .arr xs => .ok (pyStrRender u.app_name ++ ": " ++ pyStrRender (.arr (xs.take 100)))
  | _ => .error "TypeError: object is not subscriptable"

/-! ## Planner (`planner.py`) -/

/-- Outcome of the one LLM HTTP round trip inside `plan_next_action`'s
`try` block, analogous to `VLMOutcome`. -/
inductive LLMOutcome where
  | timeout
  | fails (msg : String)
  | responds (content : String)

/-- `Planner._parse_llm_response` (planner.py:234): strips fences,
JSON-decodes into an `Action`; on `JSONDecodeError` falls back to scanning
the raw text for completion/failure keywords, defaulting to WAIT.  Only
`JSONDecodeError` is caught: an exception raised by `Action.from_dict`
propagates. -/
def parseLLMResponse (response : String) : Except String Action :=
  match jsonLoads (pyStrip (stripCodeFences response)) with
  | some data => Action.fromDict data
  | none =>
    let rl := (pyLower response).data
    if subIn "task_complete".data rl || subIn "task is complete".data rl then
      .ok { action_type := .task_complete, params := .obj [],
            reasoning := .str (pyTake 200 response) }
    else if subIn "task_failed".data rl || subIn "cannot complete".data rl then
      .ok { action_type := .task_failed, params := .obj [],
            reasoning := .str (pyTake 200 response) }
    else
      .ok { action_type := .wait, params := .obj [("seconds", .num 1)],
            reasoning := .str ("Could not parse response: " ++ pyTake 100 response) }

/-- The `try` block of `Planner.plan_next_action` (planner.py:206-232): the
LLM request and response parsing.  A `requests` timeout yields a 2-second
WAIT, any other raised exception (including one raised by
`_parse_llm_response`) yields TASK_FAILED carrying the exception text.
This part never raises. -/
def planActionOf (llm : LLMOutcome) : Action :=
  match llm with
  | .timeout =>
    { action_type := .wait, params := .obj [("seconds", .num 2)],
      reasoning := .str "LLM timeout - waiting before retry" }
  | .fails msg =>
    { action_type := .task_failed, params := .obj [],
      reasoning := .str ("Planner error: " ++ msg) }
  | .responds content =>
    match parseLLMResponse content with
    | .ok a => a
    | .error e =>
      { action_type := .task_failed, params := .obj [],
        reasoning := .str ("Planner error: " ++ e) }

/-- `PlannerContext._format_available_actions` (planner.py:93): when
`ui_state.available_actions` is falsy it returns a fixed message; otherwise
it slices it (`[:10]`), raising `TypeError` for a truthy non-sliceable
value.  The produced prompt text itself is unobservable and not
modelled. -/
def formatAvailableActions (v : JValue) : Except String Unit :=
  if pyTruthy v then sliceCheck v else .ok ()

/-- `Planner.plan_next_action` (planner.py:168).  Prompt construction
(planner.py:179, via `PlannerContext.to_prompt_context`) runs *before* the
`try` block; of its pieces, only `_format_available_actions` can raise
(elements are a list of `UIElement`s and every other field is rendered by
f-strings, which accept any value), and that exception propagates to the
caller.  The rest of the prompt influences only the remote model, so the
observable behaviour is `planActionOf` of the call's outcome. -/
def planNextAction (ui : UIState) (llm : LLMOutcome) : Except String Action :=
  match formatAvailableActions ui.available_actions with
  | .error e => .error e
  | .ok _ => .ok (planActionOf llm)

/-! ## Agent loop (`vla_loop.py`) -/

/-- `AgentStatus` (vla_loop.py:27). -/
inductive AgentStatus where
  | idle | running | completed | failed | stopped
  deriving DecidableEq

/-- The `.value` string of each `AgentStatus` member. -/
def AgentStatus.value : AgentStatus → String
  | .idle => "idle"
  | .running => "running"
  | .completed => "completed"
  | .failed => "failed"
  | .stopped => "stopped"

/-- `StepRecord` (vla_loop.py:36), storing the pieces of the `action` and
`result` dicts built at vla_loop.py:311 (`timestamp` and `duration_ms` are
wall-clock and not modelled). -/
structure StepRecord where
  step_number : Nat
  ui_state_summary : String
  action_type_value : String
  action_params : JValue
  action_reasoning : JValue
  result_success : JValue
  result_message : JValue
  result_error : Option String
  screenshot_path : Option String

/-- `AgentResult` (vla_loop.py:48); `error` holds whatever value the loop
assigned (for TASK_FAILED it is the action's loosely-typed `reasoning`);
`total_duration_ms` is wall-clock and not modelled. -/
structure AgentResult where
  success : Bool
  status : AgentStatus
  task : String
  total_steps : Nat
  final_screen : Option String
  error : Option JValue
  history : List StepRecord

/-- Python `None`-or-string as a JSON value. -/
def optStr : Option String → JValue
  | none => .null
  | some s => .str s

/-- `AgentResult.to_dict` (vla_loop.py:60): the JSON-ready dictionary, with
the `history` array in list order (`total_duration_ms` omitted: wall-clock).
`to_json` is `json.dumps` of this value, which serializes arrays in element
order. -/
def AgentResult.toDict (r : AgentResult) : JValue :=
  .obj [("success", .bool r.success),
        ("status", .str r.status.value),
        ("task", .str r.task),
        ("total_steps", .num r.total_steps),
        ("final_screen", optStr r.final_screen),
        ("error", r.error.getD .null),
        ("history", .arr (r.history.map fun h =>
          .obj [("step", .num h.step_number),
                ("action", .obj [("type", .str h.action_type_value),
                                 ("params", h.action_params),
                                 ("reasoning", h.action_reasoning)]),
                ("result", .obj [("success", h.result_success),
                                 ("message", h.result_message),
                                 ("error", optStr h.result_error)])]))]

/-- The step numbers listed in the `history` array of a `to_dict` value. -/
def historySteps : JValue → List JValue
  | .obj fields =>
    match dictGet fields "history" with
    | some (.arr entries) =>
      entries.map fun entry =>
        match entry with
        | .obj ef => (dictGet ef "step").getD .null
        | _ => .null
    | _ => []
  | _ => []

/-- The environment one loop iteration interacts with: the screenshot
capture (`take_screenshot`, an external ADB round trip that returns a path
or raises), the image encoding step, the VLM and LLM call outcomes, and
the device tool responses. -/
structure StepEnv where
  screenshot : Except String String
  encode : Except String Unit
  vlm : VLMOutcome
  llm : LLMOutcome
  dev : DeviceEnv

/-- `VLAAgent._execute_step` (vla_loop.py:253) with no `on_step` callback
installed (the constructor default): perceive, plan, log, execute (skipped
for the two terminal pseudo-actions, which instead get an
always-successful `ActionResult` whose message is the action's reasoning),
then build the `StepRecord`.  The log at vla_loop.py:293 evaluates
`action.reasoning[:80]` unconditionally (f-string arguments are evaluated
before `_log` checks verbosity), raising `TypeError` when the planner's
JSON carried a non-sliceable `reasoning`.  A raised exception anywhere is
the `.error` case; note that no record is appended for a step that
raises. -/
def executeStep (serial : JValue) (e : StepEnv) (stepNumber : Nat) :
    Except String (StepRecord × ActionResult) :=
  match e.screenshot with
  | .error err => .error err
  | .ok path =>
    match analyzeScreenshot e.encode e.vlm with
    | .error err => .error err
    | .ok ui =>
      match planNextAction ui e.llm with
      | .error err => .error err
      | .ok action =>
      match sliceCheck action.reasoning with
      | .error err => .error err
      | .ok _ =>
      let result :=
        if action.action_type = .task_complete || action.action_type = .task_failed then
          { success := .bool true, action := action, message := action.reasoning,
            error := none : ActionResult }
        else
          (Executor.execute e.dev serial action).1
      match ui.summary with
      | .error err => .error err
      | .ok summ =>
        .ok ({ step_number := stepNumber,
               ui_state_summary := summ,
               action_type_value := action.action_type.value,
               action_params := action.params,
               action_reasoning := action.reasoning,
               result_success := result.success,
               result_message := result.message,
               result_error := result.error,
               screenshot_path := some path }, result)

/-- `VLAAgent._build_result` (vla_loop.py:342). -/
def buildResult (success : Bool) (status : AgentStatus) (task : String)
    (error : Option JValue) (hist : List StepRecord) : AgentResult :=
  { success := success, status := status, task := task,
    total_steps := hist.length,
    final_screen := hist.getLast?.bind fun h => h.screenshot_path,
    error := error, history := hist }

/-- The `for step in range(1, max_steps + 1)` loop of `VLAAgent.run`
(vla_loop.py:196).  `remaining` is the number of iterations left
(`maxSteps` at entry), `step` the 1-based loop counter, `flag` the current
value of `_stop_requested` as observed at the top of the iteration, and
`hist` the history list so far.  `stopDuring k` says whether `stop()` was
called between the stop-flag check of iteration `k` and that of iteration
`k + 1`.  Exhausting `remaining` is the fall-through to the
"Max steps reached" branch (vla_loop.py:232). -/
def runFrom (serial : JValue) (env : Nat → StepEnv) (stopDuring : Nat → Bool)
    (maxSteps : Nat) (task : String) :
    Nat → Nat → Bool → List StepRecord → AgentResult
  | 0, _, _, hist =>
    buildResult false .failed task
      (some (.str ("Max steps (" ++ toString maxSteps ++ ") reached"))) hist
  | remaining + 1, step, flag, hist =>
    if flag then
      buildResult false .stopped task (some (.str "Agent stopped by user")) hist
    else
      match executeStep serial (env step) step with
      | .error e => buildResult false .failed task (some (.str e)) hist
      | .ok (rec, res) =>
        let hist' := hist ++ [rec]
        if res.action.action_type = .task_complete then
          buildResult true .completed task none hist'
        else if res.action.action_type = .task_failed then
          buildResult false .failed task (some res.action.reasoning) hist'
        else
          runFrom serial env stopDuring maxSteps task remaining (step + 1)
            (flag || stopDuring step) hist'

/-- `VLAAgent.run` (vla_loop.py:176).  `initialStopRequested` is the value
of `_stop_requested` when `run()` is entered; line 187 resets it to `False`
before the first iteration, so the parameter does not influence the run.
`stopDuring 0` models a `stop()` arriving between that reset and the first
iteration's check. -/
def VLAAgent.run (serial : JValue) (task : String) (env : Nat → StepEnv)
    (stopDuring : Nat → Bool) (maxSteps : Nat) (_initialStopRequested : Bool) :
    AgentResult :=
  let flagAfterReset := false
  runFrom serial env stopDuring maxSteps task maxSteps 1
    (flagAfterReset || stopDuring 0) []

/-! ## Concrete fixtures

Closed environments used to evaluate the embedded loop at specific inputs
(witnesses and counterexamples). -/

/-- An LLM response whose parsed action is WAIT. -/
def waitContent : String := "\x7b\"action\": \"wait\"\x7d"

/-- An LLM response whose parsed action is TASK_FAILED with no `reasoning`
field (so `Action.from_dict` defaults the reasoning to `""`). -/
def bareFailContent : String := "\x7b\"action\": \"task_failed\"\x7d"

/-- A device whose every tool call reports `{"success": true}`. -/
def benignDev : DeviceEnv := fun _ => .ok "\x7b\"success\": true\x7d"

/-- A step whose screenshot and encoding succeed, whose VLM call times out,
and whose LLM call returns a WAIT action. -/
def benignStep : StepEnv :=
  { screenshot := .ok "/sdcard/screen.png", encode := .ok (), vlm := .timeout,
    llm := .responds waitContent, dev := benignDev }

/-- `benignStep` with the LLM returning a bare TASK_FAILED action. -/
def bareFailStep : StepEnv :=
  { benignStep with llm := .responds bareFailContent }

/-- `benignStep` with the LLM returning a TASK_COMPLETE action (via the
"done" synonym). -/
def completeStep : StepEnv :=
  { benignStep with llm := .responds "\x7b\"action\": \"done\"\x7d" }

/-- A valid JSON action object that contains the substring "```" inside a
string value. -/
def fencedReasoningContent : String :=
  "\x7b\"action\": \"wait\", \"reasoning\": \"x``` y\"\x7d"

/-- A VLM response whose JSON sets `available_actions` to a truthy
non-sliceable value. -/
def badActionsContent : String := "\x7b\"available_actions\": 5\x7d"

/-- The `UIState` that `_parse_vlm_response` builds from
`badActionsContent`. -/
def uiBadActions : UIState :=
  { app_name := .str "Unknown", screen_description := .str "", elements := [],
    error_message := .null, popup_visible := .bool false,
    available_actions := .num 5, raw_response := some badActionsContent }

/-- A harmless `UIState` whose `available_actions` is an empty list. -/
def uiPlain : UIState :=
  { app_name := .str "Unknown", screen_description := .str "", elements := [],
    error_message := .null, popup_visible := .bool false,
    available_actions := .arr [], raw_response := none }

/-- Observation helper: the reasoning text of a parsed-or-raised planner
response. -/
def reasoningText : Except String Action → String
  | .ok a => pyStrRender a.reasoning
  | .error msg => msg


/-- The backtick character (code 96). -/
def btChar : Char := Char.ofNat 96

/-- The characters of the plain code fence `\x60\x60\x60`. -/
def fenceList : List Char := [btChar, btChar, btChar]

/-- The characters of the JSON code fence opener. -/
def fenceJsonList : List Char := [btChar, btChar, btChar, 'j', 's', 'o', 'n']

/-! ## Basic substring lemmas -/

/-- Every list is a leading segment of itself. -/
theorem hasPre_self (x : List Char) : hasPre x x = true := by
  induction x with
  | nil => rfl
  | cons c cs ih => simp [hasPre, ih]

/-- A list is a leading segment of itself followed by anything. -/
theorem hasPre_append_self (x t : List Char) : hasPre x (x ++ t) = true := by
  induction x with
  | nil => rfl
  | cons c cs ih => simp [hasPre, ih]

/-- A leading-segment match of `a ++ b` gives one of `a`. -/
theorem hasPre_of_hasPre_append {a b x : List Char} (h : hasPre (a ++ b) x = true) :
    hasPre a x = true := by
  induction a generalizing x with
  | nil => rfl
  | cons c cs ih =>
    cases x with
    | nil => simp [hasPre] at h
    | cons y ys =>
      simp only [List.cons_append, hasPre, Bool.and_eq_true] at h ⊢
      exact ⟨h.1, ih h.2⟩

/-- A leading-segment match is a substring occurrence. -/
theorem subIn_of_hasPre {n s : List Char} (h : hasPre n s = true) :
    subIn n s = true := by
  cases s with
  | nil =>
    cases n with
    | nil => rfl
    | cons c cs => simp [hasPre] at h
  | cons c cs => simp [subIn, h]

/-- A suffix occurrence: `x` occurs in `pre ++ x`. -/
theorem subIn_append_self (pre x : List Char) : subIn x (pre ++ x) = true := by
  induction pre with
  | nil =>
    cases x with
    | nil => rfl
    | cons c cs => exact subIn_of_hasPre (hasPre_self _)
  | cons p ps ih => simp [subIn, ih]

/-! ## C2: executing the terminal pseudo-actions directly -/

/-- C2 (counterexample): executing a TASK_FAILED action directly through
`Executor.execute` returns `success=False` (message "Task marked as
failed"), not `success=True` as claimed; no device operation is performed. -/
theorem c2_counterexample :
    (Executor.execute benignDev .null ⟨.task_failed, .obj [], .str ""⟩).1.success
        = JValue.bool false ∧
    (Executor.execute benignDev .null ⟨.task_failed, .obj [], .str ""⟩).2 = [] ∧
    ¬ (Executor.execute benignDev .null ⟨.task_failed, .obj [], .str ""⟩).1.success
        = JValue.bool true := by
  refine ⟨rfl, rfl, fun h => ?_⟩
  have h' : JValue.bool false = JValue.bool true := h
  exact Bool.noConfusion (JValue.bool.inj h')

/-- C2 (amended): `Executor.execute` treats both terminal pseudo-actions as
no-ops that perform no device operation; TASK_COMPLETE yields
`success=True` and TASK_FAILED yields `success=False`. -/
theorem c2_pseudo_actions_are_noops (dev : DeviceEnv) (serial : JValue)
    (params reasoning : JValue) :
    Executor.execute dev serial ⟨.task_complete, params, reasoning⟩ =
      ({ success := .bool true, action := ⟨.task_complete, params, reasoning⟩,
         message := .str "Task marked as complete", error := none }, []) ∧
    Executor.execute dev serial ⟨.task_failed, params, reasoning⟩ =
      ({ success := .bool false, action := ⟨.task_failed, params, reasoning⟩,
         message := .str "Task marked as failed", error := none }, []) := by
  exact ⟨rfl, rfl⟩

/-- Witness for `c2_pseudo_actions_are_noops` at concrete arguments. -/
theorem c2_witness :
    Executor.execute benignDev .null ⟨.task_complete, .obj [], .str "done"⟩ =
      ({ success := .bool true, action := ⟨.task_complete, .obj [], .str "done"⟩,
         message := .str "Task marked as complete", error := none }, []) :=
  (c2_pseudo_actions_are_noops benignDev .null (.obj []) (.str "done")).1

/-! ## C3: `analyze_screenshot` error absorption -/

/-- C3 (counterexample): for a screenshot path whose image cannot be opened,
`_encode_image_base64` raises before the `try` block and the exception
propagates out of `analyze_screenshot` — no `UIState` is returned, contrary
to the claim that the call never raises for every screenshot path. -/
theorem c3_counterexample :
    analyzeScreenshot (.error "FileNotFoundError: /tmp/missing.png") .timeout
        = .error "FileNotFoundError: /tmp/missing.png" ∧
    ¬ ∃ ui, analyzeScreenshot (.error "FileNotFoundError: /tmp/missing.png") .timeout
        = .ok ui := by
  refine ⟨rfl, fun ⟨ui, h⟩ => ?_⟩
  have h' : (Except.error "FileNotFoundError: /tmp/missing.png" :
      Except String UIState) = .ok ui := h
  exact Except.noConfusion h'

/-- C3 (amended): whenever the image encoding succeeds, every outcome of the
VLM call yields an in-band `UIState` (never a raised exception); on an HTTP
timeout the state has `app_name="Unknown"` and a non-null `error_message`
containing "timeout". -/
theorem c3_analyze_never_raises :
    (∀ vlm, ∃ ui, analyzeScreenshot (.ok ()) vlm = .ok ui) ∧
    (∃ ui, analyzeScreenshot (.ok ()) .timeout = .ok ui ∧
      ui.app_name = .str "Unknown" ∧
      ∃ s, ui.error_message = .str s ∧ subIn "timeout".data s.data = true) := by
  constructor
  · intro vlm
    cases vlm with
    | timeout => exact ⟨_, rfl⟩
    | fails msg => exact ⟨_, rfl⟩
    | responds content =>
      cases h : parseVLMResponse content with
      | ok ui => exact ⟨ui, by simp [analyzeScreenshot, h]⟩
      | error e =>
        refine ⟨{ app_name := .str "Unknown",
                  screen_description := .str ("VLM analysis failed: " ++ e),
                  elements := [], error_message := .str e,
                  popup_visible := .bool false, available_actions := .arr [],
                  raw_response := none }, ?_⟩
        simp only [analyzeScreenshot]
        rw [h]
  · exact ⟨_, rfl, rfl, "Analysis timeout - screen may be complex", rfl, by decide⟩

/-- Witness for `c3_analyze_never_raises` at a concrete VLM outcome. -/
theorem c3_witness :
    ∃ ui, analyzeScreenshot (.ok ()) (.fails "connection refused") = .ok ui :=
  c3_analyze_never_raises.1 (.fails "connection refused")

/-! ## C6: `plan_next_action` failure handling -/

/-- C6 (counterexample): `plan_next_action` *can* raise.  A VLM response
`{"available_actions": 5}` is parsed into a `UIState` whose
`available_actions` is the integer 5; prompt construction (planner.py:179)
runs before the `try` block and `_format_available_actions`
(planner.py:98) slices that truthy non-sliceable value, so the call raises
`TypeError` instead of returning an `Action`. -/
theorem c6_counterexample :
    analyzeScreenshot (.ok ()) (.responds badActionsContent) = .ok uiBadActions ∧
    planNextAction uiBadActions .timeout
        = .error "TypeError: object is not subscriptable" ∧
    ¬ ∃ a, planNextAction uiBadActions .timeout = .ok a := by
  refine ⟨rfl, rfl, fun ⟨a, ha⟩ => ?_⟩
  have h' : (Except.error "TypeError: object is not subscriptable" :
      Except String Action) = .ok a := ha
  exact Except.noConfusion h'

/-- C6 (amended): whenever prompt formatting succeeds (the perceived
`available_actions` is falsy or sliceable), `plan_next_action` never
raises: on an LLM timeout it returns a WAIT action with a 2-second pause
whose reasoning notes the timeout, and on any other LLM-call failure it
returns TASK_FAILED carrying the exception text. -/
theorem c6_planner_error_handling :
    (∀ (ui : UIState) (llm : LLMOutcome),
      formatAvailableActions ui.available_actions = .ok () →
      planNextAction ui llm = .ok (planActionOf llm)) ∧
    planActionOf .timeout =
      { action_type := .wait, params := .obj [("seconds", .num 2)],
        reasoning := .str "LLM timeout - waiting before retry" } ∧
    subIn "timeout".data "LLM timeout - waiting before retry".data = true ∧
    (∀ msg, planActionOf (.fails msg) =
      { action_type := .task_failed, params := .obj [],
        reasoning := .str ("Planner error: " ++ msg) }) ∧
    (∀ msg, subIn msg.data ("Planner error: " ++ msg).data = true) := by
  refine ⟨fun ui llm hfmt => ?_, rfl, by decide, fun msg => rfl, fun msg => ?_⟩
  · unfold planNextAction
    rw [hfmt]
  · rw [String.data_append]
    exact subIn_append_self _ _

/-- Witness for `c6_planner_error_handling` at a concrete `UIState` and
failure message. -/
theorem c6_witness :
    planNextAction uiPlain (.fails "HTTPError: 500")
        = .ok { action_type := .task_failed, params := .obj [],
                reasoning := .str "Planner error: HTTPError: 500" } :=
  c6_planner_error_handling.1 uiPlain (.fails "HTTPError: 500") rfl

/-! ## C7: label normalization in `Action.from_dict` -/

/-- C7: `Action.from_dict` lowercases the raw label, replaces spaces with
underscores, resolves it through the fixed `action_map` table with WAIT as
the default for unrecognized labels; the label `"frobnicate"` with no
params yields a WAIT action with empty parameters. -/
theorem c7_from_dict_label_normalization :
    (∀ (fields : List (String × JValue)) (s : String),
      dictGetD fields "action" (.str "") = .str s →
      Action.fromDict (.obj fields) =
        .ok { action_type := actionMapGet (normalizeLabel s),
              params := dictGetD fields "params" (.obj []),
              reasoning := dictGetD fields "reasoning" (.str "") }) ∧
    (∀ s : String, (actionMap.find? fun p => p.1 = normalizeLabel s) = none →
      actionMapGet (normalizeLabel s) = .wait) ∧
    normalizeLabel "Go Back" = "go_back" ∧
    actionMapGet "go_back" = .go_back ∧
    Action.fromDict (.obj [("action", .str "frobnicate")]) =
      .ok { action_type := .wait, params := .obj [], reasoning := .str "" } := by
  refine ⟨fun fields s h => ?_, fun s h => ?_, rfl, rfl, rfl⟩
  · simp only [Action.fromDict, h]
  · simp only [actionMapGet, h, Option.map_none', Option.getD_none]

/-- Witness for `c7_from_dict_label_normalization`: instantiating the
unrecognized-label clause at `"frobnicate"`. -/
theorem c7_witness :
    ((actionMap.find? fun p => p.1 = normalizeLabel "frobnicate") = none) ∧
    actionMapGet (normalizeLabel "frobnicate") = .wait :=
  ⟨by decide, c7_from_dict_label_normalization.2.1 "frobnicate" (by decide)⟩

/-! ## Structural lemmas about the executor and one loop step -/

/-- `finishExecute` preserves the action it wraps. -/
theorem finishExecute_action (a : Action)
    (p : List ToolCall × Except String (JValue × JValue)) :
    (finishExecute a p).1.action = a := by
  rcases p with ⟨trace, res⟩
  cases res with
  | ok v => rcases v with ⟨s, m⟩; rfl
  | error e => rfl

/-- `Executor.execute` returns an `ActionResult` carrying the executed
action. -/
theorem execute_action (dev : DeviceEnv) (serial : JValue) (a : Action) :
    (Executor.execute dev serial a).1.action = a := by
  cases a with
  | mk ty params reasoning =>
    cases ty <;> exact finishExecute_action _ _

/-- A planner call that returns an action returns the LLM-determined
one. -/
theorem planNextAction_ok {ui : UIState} {llm : LLMOutcome} {a : Action}
    (h : planNextAction ui llm = .ok a) : a = planActionOf llm := by
  unfold planNextAction at h
  split at h
  · exact Except.noConfusion h
  · exact (Except.ok.inj h).symm

/-- What a successfully completed loop step determines: the result carries
the action the planner produced for some perceived `UIState`, and the
appended record carries the step number and the action's type string and
reasoning. -/
theorem executeStep_ok_spec (serial : JValue) (e : StepEnv) (n : Nat)
    (rec : StepRecord) (res : ActionResult)
    (h : executeStep serial e n = .ok (rec, res)) :
    (∃ ui, analyzeScreenshot e.encode e.vlm = .ok ui ∧
      planNextAction ui e.llm = .ok res.action) ∧
    rec.step_number = n ∧
    rec.action_type_value = res.action.action_type.value ∧
    rec.action_reasoning = res.action.reasoning := by
  unfold executeStep at h
  split at h
  · exact Except.noConfusion h
  · split at h
    · exact Except.noConfusion h
    · rename_i ui hui
      split at h
      · exact Except.noConfusion h
      · rename_i action hplan
        split at h
        · exact Except.noConfusion h
        · split at h
          · -- terminal pseudo-action: result is the literal ActionResult
            split at h
            · exact Except.noConfusion h
            · rw [Except.ok.injEq, Prod.mk.injEq] at h
              obtain ⟨hrec, hres⟩ := h
              subst hrec
              subst hres
              exact ⟨⟨ui, hui, hplan⟩, rfl, rfl, rfl⟩
          · -- dispatched action: result comes from Executor.execute
            split at h
            · exact Except.noConfusion h
            · rw [Except.ok.injEq, Prod.mk.injEq] at h
              obtain ⟨hrec, hres⟩ := h
              subst hrec
              subst hres
              have hact := execute_action e.dev serial action
              refine ⟨⟨ui, hui, ?_⟩, rfl, ?_, ?_⟩
              · rw [hact]
                exact hplan
              · rw [hact]
              · rw [hact]

/-- An action type's `.value` is `"task_complete"` exactly for
`TASK_COMPLETE`. -/
theorem value_eq_task_complete_iff (a : ActionType) :
    a.value = "task_complete" ↔ a = .task_complete := by
  cases a <;> decide

/-- A history whose records all avoid `"task_complete"` has no terminal
TASK_COMPLETE record. -/
theorem no_complete_last {hist : List StepRecord}
    (hinv : ∀ rec ∈ hist, rec.action_type_value ≠ "task_complete") :
    ¬ hist.getLast?.map (fun h => h.action_type_value) = some "task_complete" := by
  intro h
  cases hl : hist.getLast? with
  | none => rw [hl] at h; exact Option.noConfusion h
  | some rec =>
    rw [hl, Option.map_some'] at h
    exact hinv rec (List.mem_of_mem_getLast? hl) (Option.some.inj h)

/-- Loop invariant for C1: provided no record so far is a TASK_COMPLETE
record, the loop result has `success = True` exactly when the final history
record is a TASK_COMPLETE record. -/
theorem runFrom_success_iff (serial : JValue) (env : Nat → StepEnv) (sd : Nat → Bool)
    (maxSteps : Nat) (task : String) :
    ∀ (r step : Nat) (flag : Bool) (hist : List StepRecord),
      (∀ rec ∈ hist, rec.action_type_value ≠ "task_complete") →
      ((runFrom serial env sd maxSteps task r step flag hist).success = true ↔
        (runFrom serial env sd maxSteps task r step flag hist).history.getLast?.map
          (fun h => h.action_type_value) = some "task_complete") := by
  intro r
  induction r with
  | zero =>
    intro step flag hist hinv
    simp only [runFrom, buildResult]
    exact ⟨fun h => absurd h (by simp), fun h => absurd h (no_complete_last hinv)⟩
  | succ r ih =>
    intro step flag hist hinv
    rw [runFrom]
    split
    · simp only [buildResult]
      exact ⟨fun h => absurd h (by simp), fun h => absurd h (no_complete_last hinv)⟩
    · split
      · simp only [buildResult]
        exact ⟨fun h => absurd h (by simp), fun h => absurd h (no_complete_last hinv)⟩
      · rename_i rec res hstep
        obtain ⟨-, -, hval, -⟩ := executeStep_ok_spec _ _ _ _ _ hstep
        split
        · rename_i hcomplete
          simp only [buildResult, List.getLast?_concat, Option.map_some']
          constructor
          · intro _
            rw [hval, hcomplete]
            rfl
          · intro _; exact trivial
        · split
          · rename_i hncomplete hfailed
            simp only [buildResult, List.getLast?_concat, Option.map_some']
            constructor
            · intro h; exact absurd h (by simp)
            · intro h
              exfalso
              have hv : rec.action_type_value = "task_complete" := Option.some.inj h
              rw [hval] at hv
              have h2 : res.action.action_type = .task_complete :=
                (value_eq_task_complete_iff _).mp hv
              exact ActionType.noConfusion (h2.symm.trans hfailed)
          · rename_i hncomplete hnfailed
            apply ih
            intro r2 hr2
            rcases List.mem_append.mp hr2 with hmem | hmem
            · exact hinv r2 hmem
            · rw [List.mem_singleton.mp hmem, hval]
              intro hv
              exact hncomplete ((value_eq_task_complete_iff _).mp hv)

/-! ## C1: success iff the terminating action was TASK_COMPLETE -/

/-- C1: for every run of the agent loop, `success = True` exactly when the
record of the step that ended the loop carries a TASK_COMPLETE action;
every other exit (TASK_FAILED, budget exhaustion, stop request, caught
exception) leaves `success = False`. -/
theorem c1_success_iff_task_complete (serial : JValue) (task : String)
    (env : Nat → StepEnv) (sd : Nat → Bool) (N : Nat) (istop : Bool) :
    (VLAAgent.run serial task env sd N istop).success = true ↔
      (VLAAgent.run serial task env sd N istop).history.getLast?.map
        (fun h => h.action_type_value) = some "task_complete" := by
  exact runFrom_success_iff serial env sd N task N 1 _ [] (by simp)

/-- Witness for `c1_success_iff_task_complete`: a run that ends with
TASK_COMPLETE has `success = True`, and one that exhausts its budget has
`success = False`. -/
theorem c1_witness :
    (VLAAgent.run .null "t" (fun _ => completeStep) (fun _ => false) 3 false).success
        = true ∧
    (VLAAgent.run .null "t" (fun _ => benignStep) (fun _ => false) 3 false).success
        = false := by
  constructor
  · exact (c1_success_iff_task_complete .null "t" (fun _ => completeStep)
      (fun _ => false) 3 false).mpr (by rfl)
  · have h := c1_success_iff_task_complete .null "t" (fun _ => benignStep)
      (fun _ => false) 3 false
    by_contra hc
    simp only [Bool.not_eq_false] at hc
    exact absurd (h.mp hc) (by decide)

/-! ## C8: history step numbers -/

/-- Loop invariant for C8: if the incoming history's step numbers are
exactly `1, …, hist.length` and the loop counter continues from there, the
final history's step numbers are exactly `1, …, n`. -/
theorem runFrom_step_numbers (serial : JValue) (env : Nat → StepEnv) (sd : Nat → Bool)
    (maxSteps : Nat) (task : String) :
    ∀ (r step : Nat) (flag : Bool) (hist : List StepRecord),
      hist.map (fun h => h.step_number) = List.range' 1 hist.length →
      step = hist.length + 1 →
      ((runFrom serial env sd maxSteps task r step flag hist).history.map
          (fun h => h.step_number)
        = List.range' 1
          (runFrom serial env sd maxSteps task r step flag hist).history.length) := by
  intro r
  induction r with
  | zero =>
    intro step flag hist hmap hstep
    simpa only [runFrom, buildResult] using hmap
  | succ r ih =>
    intro step flag hist hmap hstep
    rw [runFrom]
    split
    · simpa only [buildResult] using hmap
    · split
      · simpa only [buildResult] using hmap
      · rename_i rec res hok
        obtain ⟨_, hnum, _, _⟩ := executeStep_ok_spec _ _ _ _ _ hok
        have hmap' : (hist ++ [rec]).map (fun h => h.step_number)
            = List.range' 1 (hist ++ [rec]).length := by
          rw [List.map_append, hmap, List.length_append, List.length_singleton,
            List.range'_concat, List.map_singleton, hnum, hstep]
          simp [Nat.add_comm]
        split
        · simpa only [buildResult] using hmap'
        · split
          · simpa only [buildResult] using hmap'
          · exact ih (step + 1) _ (hist ++ [rec]) hmap'
              (by rw [List.length_append, List.length_singleton, hstep])

/-- The `history` array of `to_dict` lists each record's step number, in
list order. -/
theorem historySteps_toDict (r : AgentResult) :
    historySteps r.toDict = r.history.map (fun h => JValue.num h.step_number) := by
  show List.map _ (r.history.map _) = _
  rw [List.map_map]
  rfl

/-- In every result the loop produces, `total_steps` is the history
length. -/
theorem runFrom_total_steps (serial : JValue) (env : Nat → StepEnv) (sd : Nat → Bool)
    (maxSteps : Nat) (task : String) :
    ∀ (r step : Nat) (flag : Bool) (hist : List StepRecord),
      (runFrom serial env sd maxSteps task r step flag hist).total_steps
        = (runFrom serial env sd maxSteps task r step flag hist).history.length := by
  intro r
  induction r with
  | zero => intro step flag hist; rfl
  | succ r ih =>
    intro step flag hist
    rw [runFrom]
    split
    · rfl
    · split
      · rfl
      · split
        · rfl
        · split
          · rfl
          · exact ih _ _ _

/-- C8: every run's history has step numbers forming exactly the strictly
increasing sequence `1, 2, …, total_steps`, and the `history` array of
`to_dict()` (which `to_json` serializes in order) reproduces those step
numbers in the same strictly increasing order. -/
theorem c8_history_step_numbers (serial : JValue) (task : String)
    (env : Nat → StepEnv) (sd : Nat → Bool) (N : Nat) (istop : Bool) :
    ((VLAAgent.run serial task env sd N istop).history.map (fun h => h.step_number)
      = List.range' 1 (VLAAgent.run serial task env sd N istop).history.length) ∧
    (historySteps (VLAAgent.run serial task env sd N istop).toDict
      = (List.range' 1 (VLAAgent.run serial task env sd N istop).history.length).map
          (fun k : Nat => JValue.num (Int.ofNat k))) ∧
    (VLAAgent.run serial task env sd N istop).total_steps
      = (VLAAgent.run serial task env sd N istop).history.length := by
  have hmap := runFrom_step_numbers serial env sd N task N 1 (false || sd 0) []
    (by simp) (by simp)
  have hrun : VLAAgent.run serial task env sd N istop
      = runFrom serial env sd N task N 1 (false || sd 0) [] := rfl
  rw [hrun]
  refine ⟨hmap, ?_, runFrom_total_steps serial env sd N task N 1 _ []⟩
  rw [historySteps_toDict, ← hmap, List.map_map]
  rfl

/-! ## Walking the loop through non-terminal steps -/

/-- If `m` consecutive steps starting at `step` all succeed with
non-terminal actions and no stop request arrives during them, the loop
executes them all, appending exactly `m` records. -/
theorem runFrom_walk (serial : JValue) (env : Nat → StepEnv) (sd : Nat → Bool)
    (maxSteps : Nat) (task : String) :
    ∀ (m r' step : Nat) (hist : List StepRecord),
      (∀ k, step ≤ k → k < step + m →
        (∃ rec res, executeStep serial (env k) k = .ok (rec, res) ∧
          res.action.action_type ≠ .task_complete ∧
          res.action.action_type ≠ .task_failed) ∧ sd k = false) →
      ∃ chunk : List StepRecord,
        chunk.length = m ∧
        runFrom serial env sd maxSteps task (m + r') step false hist =
          runFrom serial env sd maxSteps task r' (step + m) false (hist ++ chunk) := by
  intro m
  induction m with
  | zero =>
    intro r' step hist _
    exact ⟨[], rfl, by simp⟩
  | succ m ih =>
    intro r' step hist h
    obtain ⟨⟨rec, res, hstep, hnc, hnf⟩, hsd⟩ :=
      h step (Nat.le_refl step) (by omega)
    have e1 : m + 1 + r' = (m + r') + 1 := by omega
    rw [e1, runFrom]
    rw [if_neg (by simp), hstep]
    simp only
    rw [if_neg hnc, if_neg hnf, hsd]
    obtain ⟨chunk, hlen, heq⟩ := ih r' (step + 1) (hist ++ [rec])
      (fun k hk1 hk2 => h k (by omega) (by omega))
    refine ⟨rec :: chunk, by simp [hlen], ?_⟩
    rw [Bool.or_false, heq, List.append_assoc]
    have e2 : step + 1 + m = step + (m + 1) := by omega
    rw [e2]
    rfl

/-! ## C4: exact budget exhaustion -/

/-- C4: for every step budget `N ≥ 1`, if no step raises an uncaught
exception, the planner never produces TASK_COMPLETE or TASK_FAILED, and no
stop is requested, the loop runs exactly `N` steps and exits with
`success = False`, status FAILED, and the "Max steps (N) reached" error. -/
theorem c4_budget_exhaustion (serial : JValue) (task : String)
    (env : Nat → StepEnv) (sd : Nat → Bool) (N : Nat) (istop : Bool)
    (_hN : 1 ≤ N)
    (hplan : ∀ k, (planActionOf ((env k).llm)).action_type ≠ .task_complete ∧
                  (planActionOf ((env k).llm)).action_type ≠ .task_failed)
    (hok : ∀ k, ∃ rr, executeStep serial (env k) k = .ok rr)
    (hsd : ∀ j, sd j = false) :
    (VLAAgent.run serial task env sd N istop).total_steps = N ∧
    (VLAAgent.run serial task env sd N istop).success = false ∧
    (VLAAgent.run serial task env sd N istop).status = .failed ∧
    (VLAAgent.run serial task env sd N istop).error
      = some (.str ("Max steps (" ++ toString N ++ ") reached")) := by
  have hrun : VLAAgent.run serial task env sd N istop
      = runFrom serial env sd N task N 1 (false || sd 0) [] := rfl
  obtain ⟨chunk, hlen, heq⟩ := runFrom_walk serial env sd N task N 0 1 []
    (fun k hk1 hk2 => by
      obtain ⟨⟨rec, res⟩, hstep⟩ := hok k
      obtain ⟨⟨ui, -, hpl⟩, -, -, -⟩ := executeStep_ok_spec _ _ _ _ _ hstep
      have hact := planNextAction_ok hpl
      exact ⟨⟨rec, res, hstep, by rw [hact]; exact (hplan k).1,
        by rw [hact]; exact (hplan k).2⟩, hsd k⟩)
  rw [Nat.add_zero] at heq
  rw [hrun, hsd 0, Bool.or_false, heq]
  simp only [runFrom, buildResult, List.nil_append]
  exact ⟨hlen, trivial, trivial, trivial⟩

/-- Witness for `c4_budget_exhaustion`: a concrete 2-step budget run whose
planner always returns WAIT. -/
theorem c4_witness :
    (VLAAgent.run .null "t" (fun _ => benignStep) (fun _ => false) 2 false).total_steps
        = 2 ∧
    (VLAAgent.run .null "t" (fun _ => benignStep) (fun _ => false) 2 false).success
        = false ∧
    (VLAAgent.run .null "t" (fun _ => benignStep) (fun _ => false) 2 false).status
        = .failed ∧
    (VLAAgent.run .null "t" (fun _ => benignStep) (fun _ => false) 2 false).error
        = some (.str ("Max steps (" ++ toString 2 ++ ") reached")) :=
  c4_budget_exhaustion .null "t" (fun _ => benignStep) (fun _ => false) 2 false
    (by decide)
    (fun k =>
      show (planActionOf benignStep.llm).action_type ≠ .task_complete ∧
           (planActionOf benignStep.llm).action_type ≠ .task_failed from
        ⟨by decide, by decide⟩)
    (fun k => ⟨_, rfl⟩)
    (fun j => rfl)

/-! ## C5: immediate termination on TASK_FAILED -/

/-- C5 (amended): for every step budget `N ≥ 1`, if the planner returns a
TASK_FAILED action on every step (and step 1 raises no uncaught exception,
with no stop request pending), the loop terminates after exactly 1 step
with `success = False`, status FAILED, and `error` equal to the failing
action's reasoning — which is non-empty exactly when that reasoning is
non-empty (the planner can legitimately produce a TASK_FAILED action whose
reasoning is the empty string). -/
theorem c5_immediate_failure (serial : JValue) (task : String)
    (env : Nat → StepEnv) (sd : Nat → Bool) (N : Nat) (istop : Bool)
    (hN : 1 ≤ N)
    (hplan : ∀ k, (planActionOf ((env k).llm)).action_type = .task_failed)
    (hok : ∃ rr, executeStep serial (env 1) 1 = .ok rr)
    (hsd : sd 0 = false) :
    (VLAAgent.run serial task env sd N istop).total_steps = 1 ∧
    (VLAAgent.run serial task env sd N istop).success = false ∧
    (VLAAgent.run serial task env sd N istop).status = .failed ∧
    (VLAAgent.run serial task env sd N istop).error
      = some (planActionOf ((env 1).llm)).reasoning := by
  have hrun : VLAAgent.run serial task env sd N istop
      = runFrom serial env sd N task N 1 (false || sd 0) [] := rfl
  obtain ⟨r, hr⟩ : ∃ r, N = r + 1 := ⟨N - 1, by omega⟩
  obtain ⟨⟨rec, res⟩, hstep⟩ := hok
  obtain ⟨⟨ui, -, hpl⟩, -, -, -⟩ := executeStep_ok_spec _ _ _ _ _ hstep
  have hact := planNextAction_ok hpl
  have hfail : res.action.action_type = .task_failed := by rw [hact]; exact hplan 1
  rw [hrun, hsd, Bool.or_false, hr, runFrom, if_neg (by simp), hstep]
  simp only
  rw [if_neg (by rw [hfail]; decide), if_pos hfail]
  simp only [buildResult, List.nil_append, List.length_singleton]
  exact ⟨trivial, trivial, trivial, by rw [← hact]⟩

/-- C5 (counterexample): the claim's "non-empty error string" fails — a
planner LLM response `{"action": "task_failed"}` (no `reasoning` field)
produces a TASK_FAILED action whose reasoning defaults to `""`, so the run
terminates after 1 step with `success=False` but `error` equal to the empty
string. -/
theorem c5_counterexample :
    (planActionOf (bareFailStep.llm)).action_type = .task_failed ∧
    (VLAAgent.run .null "t" (fun _ => bareFailStep) (fun _ => false) 3 false).total_steps
        = 1 ∧
    (VLAAgent.run .null "t" (fun _ => bareFailStep) (fun _ => false) 3 false).success
        = false ∧
    (VLAAgent.run .null "t" (fun _ => bareFailStep) (fun _ => false) 3 false).error
        = some (.str "") ∧
    ¬ ∃ s, (VLAAgent.run .null "t" (fun _ => bareFailStep) (fun _ => false) 3 false).error
        = some (.str s) ∧ s ≠ "" := by
  refine ⟨rfl, rfl, rfl, rfl, fun ⟨s, hs, hne⟩ => ?_⟩
  have h2 : (some (JValue.str "") : Option JValue) = some (.str s) := hs
  exact hne (JValue.str.inj (Option.some.inj h2)).symm

/-- Witness for `c5_immediate_failure`: a concrete run whose planner always
returns a bare TASK_FAILED. -/
theorem c5_witness :
    (VLAAgent.run .null "t" (fun _ => bareFailStep) (fun _ => false) 4 false).total_steps
        = 1 ∧
    (VLAAgent.run .null "t" (fun _ => bareFailStep) (fun _ => false) 4 false).success
        = false ∧
    (VLAAgent.run .null "t" (fun _ => bareFailStep) (fun _ => false) 4 false).status
        = .failed ∧
    (VLAAgent.run .null "t" (fun _ => bareFailStep) (fun _ => false) 4 false).error
      = some (planActionOf (bareFailStep.llm)).reasoning :=
  c5_immediate_failure .null "t" (fun _ => bareFailStep) (fun _ => false) 4 false
    (by decide)
    (fun k => show (planActionOf bareFailStep.llm).action_type = .task_failed by decide)
    ⟨_, rfl⟩
    rfl

/-! ## C10: stop-request semantics -/

/-- If the stop flag is clear and no stop request ever arrives, the loop
never exits with status STOPPED. -/
theorem runFrom_no_stop (serial : JValue) (env : Nat → StepEnv) (sd : Nat → Bool)
    (maxSteps : Nat) (task : String) (hsd : ∀ j, sd j = false) :
    ∀ (r step : Nat) (hist : List StepRecord),
      (runFrom serial env sd maxSteps task r step false hist).status ≠ .stopped := by
  intro r
  induction r with
  | zero => intro step hist h; exact AgentStatus.noConfusion h
  | succ r ih =>
    intro step hist
    rw [runFrom, if_neg (by simp)]
    split
    · intro h; exact AgentStatus.noConfusion h
    · split
      · intro h; exact AgentStatus.noConfusion h
      · split
        · intro h; exact AgentStatus.noConfusion h
        · rw [hsd, Bool.or_false]
          exact ih _ _

/-- C10: (i) the result of `run()` is independent of the value the stop
flag held before entry (line 187 resets it), so a stop requested before
`run()` is discarded; (ii) a run during which no stop is requested never
ends STOPPED; (iii) a stop requested during step `j` (with steps `1..j`
succeeding non-terminally and budget `N > j`) is honored exactly at the top
of iteration `j+1`: the run ends STOPPED having executed exactly `j`
steps. -/
theorem c10_stop_request_semantics (serial : JValue) (task : String)
    (env : Nat → StepEnv) (sd : Nat → Bool) (N : Nat) :
    (∀ b b' : Bool,
      VLAAgent.run serial task env sd N b = VLAAgent.run serial task env sd N b') ∧
    ((∀ j, sd j = false) → ∀ b,
      (VLAAgent.run serial task env sd N b).status ≠ .stopped) ∧
    (∀ j, 1 ≤ j → j + 1 ≤ N →
      (∀ k, 1 ≤ k → k ≤ j →
        ∃ rec res, executeStep serial (env k) k = .ok (rec, res) ∧
          res.action.action_type ≠ .task_complete ∧
          res.action.action_type ≠ .task_failed) →
      (∀ i, i < j → sd i = false) → sd j = true →
      (VLAAgent.run serial task env sd N false).status = .stopped ∧
      (VLAAgent.run serial task env sd N false).total_steps = j) := by
  refine ⟨fun b b' => rfl, fun hsd b => ?_, fun j hj1 hjN hsteps hbefore hat => ?_⟩
  · have hrun : VLAAgent.run serial task env sd N b
        = runFrom serial env sd N task N 1 (false || sd 0) [] := rfl
    rw [hrun, hsd 0, Bool.or_false]
    exact runFrom_no_stop serial env sd N task hsd N 1 []
  · have hrun : VLAAgent.run serial task env sd N false
        = runFrom serial env sd N task N 1 (false || sd 0) [] := rfl
    obtain ⟨m, rfl⟩ : ∃ m, j = m + 1 := ⟨j - 1, by omega⟩
    obtain ⟨d, hd⟩ : ∃ d, N = m + (d + 2) := ⟨N - m - 2, by omega⟩
    obtain ⟨chunk, hlen, heq⟩ := runFrom_walk serial env sd N task m (d + 2) 1 []
      (fun k hk1 hk2 => ⟨hsteps k hk1 (by omega), hbefore k (by omega)⟩)
    rw [hrun, hbefore 0 (by omega), Bool.or_false]
    rw [show runFrom serial env sd N task N 1 false ([] : List StepRecord)
        = runFrom serial env sd N task (m + (d + 2)) 1 false [] from by rw [← hd], heq]
    obtain ⟨rec, res, hstep, hnc, hnf⟩ := hsteps (m + 1) (by omega) (Nat.le_refl _)
    have e1 : 1 + m = m + 1 := by omega
    rw [e1, runFrom, if_neg (by simp), hstep]
    simp only
    rw [if_neg hnc, if_neg hnf, hat, Bool.or_true, runFrom, if_pos rfl]
    simp only [buildResult, List.nil_append, List.length_append, List.length_singleton,
      hlen]
    exact ⟨trivial, trivial⟩

/-- Witness for `c10_stop_request_semantics`: a stop requested during step 1
of a 3-step-budget run stops the run at the top of step 2, after exactly
one executed step. -/
theorem c10_witness :
    (VLAAgent.run .null "t" (fun _ => benignStep) (fun i => i == 1) 3 false).status
        = .stopped ∧
    (VLAAgent.run .null "t" (fun _ => benignStep) (fun i => i == 1) 3 false).total_steps
        = 1 :=
  (c10_stop_request_semantics .null "t" (fun _ => benignStep) (fun i => i == 1) 3).2.2
    1 (by decide) (by decide)
    (fun k _ _ => ⟨_, _, rfl, by decide, by decide⟩)
    (fun i hi => by
      have h0 : i = 0 := by omega
      subst h0
      rfl)
    rfl

/-! ## Splitting and fence-stripping lemmas (for C9) -/

/-- The string literals used by `stripCodeFences`, as explicit char lists. -/
theorem fence_data : "```".data = fenceList := rfl

/-- The JSON-fence literal as an explicit char list. -/
theorem fenceJson_data : "```json".data = fenceJsonList := rfl

/-- `fenceJsonList` extends `fenceList`. -/
theorem fenceJson_eq_append : fenceJsonList = fenceList ++ ['j', 's', 'o', 'n'] := rfl

/-- Unfolding `pySplitGo` on a non-empty separator and input. -/
theorem pySplitGo_cons (s0 : Char) (ss : List Char) (fuel : Nat) (c : Char)
    (rest acc : List Char) :
    pySplitGo (s0 :: ss) (fuel + 1) (c :: rest) acc
      = if hasPre (s0 :: ss) (c :: rest) then
          acc.reverse :: pySplitGo (s0 :: ss) fuel (rest.drop ss.length) []
        else pySplitGo (s0 :: ss) fuel rest (c :: acc) := rfl

/-- `pySplitGo` on empty input emits the accumulated chunk. -/
theorem pySplitGo_nil_input (sep : List Char) (fuel : Nat) (acc : List Char) :
    pySplitGo sep fuel [] acc = [acc.reverse] := by
  cases fuel with
  | zero => simp [pySplitGo]
  | succ f => rfl

/-- A scan that never matches the separator returns the whole input as one
chunk. -/
theorem pySplitGo_no_match (sep : List Char) :
    ∀ (s : List Char) (fuel : Nat) (acc : List Char),
      s.length ≤ fuel → subIn sep s = false →
      pySplitGo sep fuel s acc = [acc.reverse ++ s] := by
  intro s
  induction s with
  | nil => intro fuel acc _ _; rw [pySplitGo_nil_input, List.append_nil]
  | cons c rest ih =>
    intro fuel acc hfuel h
    rw [subIn, Bool.or_eq_false_iff] at h
    obtain ⟨h1, h2⟩ := h
    cases fuel with
    | zero => simp at hfuel
    | succ f =>
      cases sep with
      | nil => rw [show hasPre [] (c :: rest) = true from rfl] at h1; exact Bool.noConfusion h1
      | cons s0 ss =>
        rw [pySplitGo_cons, if_neg (by rw [h1]; simp), ih f (c :: acc) (by simpa using hfuel) h2]
        simp

/-- A scan whose input starts with the separator emits the accumulated
chunk and continues after the separator. -/
theorem pySplitGo_head_match (s0 : Char) (ss t acc : List Char) (fuel : Nat) :
    pySplitGo (s0 :: ss) (fuel + 1) ((s0 :: ss) ++ t) acc
      = acc.reverse :: pySplitGo (s0 :: ss) fuel t [] := by
  rw [List.cons_append, pySplitGo_cons,
    if_pos (by rw [← List.cons_append]; exact hasPre_append_self _ _),
    List.drop_left]

/-- The fence does not start at a newline. -/
theorem hasPre_fence_nl (t : List Char) : hasPre fenceList ('\n' :: t) = false := by
  show (decide (btChar = '\n') && hasPre [btChar, btChar] t) = false
  rw [show decide (btChar = '\n') = false from rfl, Bool.false_and]

/-- Neither does the JSON fence. -/
theorem hasPre_fenceJson_nl (t : List Char) : hasPre fenceJsonList ('\n' :: t) = false := by
  show (decide (btChar = '\n') && hasPre [btChar, btChar, 'j', 's', 'o', 'n'] t) = false
  rw [show decide (btChar = '\n') = false from rfl, Bool.false_and]

/-- If the plain fence does not start somewhere, the JSON fence does not
start there either. -/
theorem hasPre_fenceJson_of_not_fence {x : List Char}
    (h : hasPre fenceList x = false) : hasPre fenceJsonList x = false := by
  cases hb : hasPre fenceJsonList x with
  | false => rfl
  | true =>
    rw [fenceJson_eq_append] at hb
    rw [hasPre_of_hasPre_append hb] at h
    exact Bool.noConfusion h

/-- No straddling: if the fence does not start at the head of `c :: S'`,
then appending `'\n' :: t` cannot create a fence occurrence starting at
that head, because the `'\n'` separates any backticks of `S'` from `t`. -/
theorem hasPre_fence_straddle (c : Char) (S' t : List Char)
    (h : hasPre fenceList (c :: S') = false) :
    hasPre fenceList (c :: (S' ++ '\n' :: t)) = false := by
  cases S' with
  | nil =>
    show (decide (btChar = c) && (decide (btChar = '\n') && hasPre [btChar] t)) = false
    rw [show decide (btChar = '\n') = false from rfl, Bool.false_and, Bool.and_false]
  | cons d S'' =>
    cases S'' with
    | nil =>
      show (decide (btChar = c) && (decide (btChar = d) &&
        (decide (btChar = '\n') && hasPre [] t))) = false
      rw [show decide (btChar = '\n') = false from rfl, Bool.false_and, Bool.and_false,
        Bool.and_false]
    | cons e S''' => exact h

/-- If `S` contains no fence, `S ++ "\n"` contains none either. -/
theorem subIn_fence_append_nl (S : List Char) (h : subIn fenceList S = false) :
    subIn fenceList (S ++ ['\n']) = false := by
  induction S with
  | nil => decide
  | cons c S' ih =>
    rw [subIn, Bool.or_eq_false_iff] at h
    show subIn fenceList (c :: (S' ++ ['\n'])) = false
    rw [subIn, Bool.or_eq_false_iff]
    refine ⟨?_, ih h.2⟩
    have := hasPre_fence_straddle c S' [] h.1
    simpa using this

/-- If `S` contains no fence, it contains no JSON fence. -/
theorem subIn_fenceJson_of_no_fence (S : List Char) (h : subIn fenceList S = false) :
    subIn fenceJsonList S = false := by
  induction S with
  | nil => rfl
  | cons c S' ih =>
    rw [subIn, Bool.or_eq_false_iff] at h
    rw [subIn, Bool.or_eq_false_iff]
    exact ⟨hasPre_fenceJson_of_not_fence h.1, ih h.2⟩

/-- If `S` contains no fence, `S ++ "\n\x60\x60\x60"` contains no JSON
fence: the closing fence is followed by nothing, so the four-character
suffix `json` cannot appear. -/
theorem subIn_fenceJson_before_close (S : List Char) (h : subIn fenceList S = false) :
    subIn fenceJsonList (S ++ '\n' :: fenceList) = false := by
  induction S with
  | nil => decide
  | cons c S' ih =>
    rw [subIn, Bool.or_eq_false_iff] at h
    show subIn fenceJsonList (c :: (S' ++ '\n' :: fenceList)) = false
    rw [subIn, Bool.or_eq_false_iff]
    exact ⟨hasPre_fenceJson_of_not_fence (hasPre_fence_straddle c S' fenceList h.1), ih h.2⟩

/-- `pySplitGo_cons` specialized to the plain fence separator. -/
theorem pySplitGo_fence_cons (fuel : Nat) (c : Char) (rest acc : List Char) :
    pySplitGo fenceList (fuel + 1) (c :: rest) acc
      = if hasPre fenceList (c :: rest) then
          acc.reverse :: pySplitGo fenceList fuel (rest.drop 2) []
        else pySplitGo fenceList fuel rest (c :: acc) := rfl

/-- `pySplitGo_cons` specialized to the JSON fence separator. -/
theorem pySplitGo_fenceJson_cons (fuel : Nat) (c : Char) (rest acc : List Char) :
    pySplitGo fenceJsonList (fuel + 1) (c :: rest) acc
      = if hasPre fenceJsonList (c :: rest) then
          acc.reverse :: pySplitGo fenceJsonList fuel (rest.drop 6) []
        else pySplitGo fenceJsonList fuel rest (c :: acc) := rfl

/-- `pySplitGo_head_match` specialized to the plain fence. -/
theorem pySplitGo_fence_head (t acc : List Char) (fuel : Nat) :
    pySplitGo fenceList (fuel + 1) (fenceList ++ t) acc
      = acc.reverse :: pySplitGo fenceList fuel t [] :=
  pySplitGo_head_match btChar [btChar, btChar] t acc fuel

/-- `pySplitGo_head_match` specialized to the JSON fence. -/
theorem pySplitGo_fenceJson_head (t acc : List Char) (fuel : Nat) :
    pySplitGo fenceJsonList (fuel + 1) (fenceJsonList ++ t) acc
      = acc.reverse :: pySplitGo fenceJsonList fuel t [] :=
  pySplitGo_head_match btChar [btChar, btChar, 'j', 's', 'o', 'n'] t acc fuel

/-- The scan of `S ++ "\n\x60\x60\x60"` (with `S` fence-free) finds exactly
the final fence: one chunk `S ++ "\n"` and one empty trailing chunk. -/
theorem pySplitGo_until_close (S : List Char) :
    ∀ (fuel : Nat) (acc : List Char),
      (S ++ '\n' :: fenceList).length ≤ fuel → subIn fenceList S = false →
      pySplitGo fenceList fuel (S ++ '\n' :: fenceList) acc
        = [acc.reverse ++ S ++ ['\n'], []] := by
  induction S with
  | nil =>
    intro fuel acc hfuel _
    obtain ⟨f, rfl⟩ : ∃ f, fuel = f + 4 := ⟨fuel - 4, by simp [fenceList] at hfuel; omega⟩
    show pySplitGo fenceList (f + 3 + 1) ('\n' :: fenceList) acc = _
    rw [pySplitGo_fence_cons, if_neg (by rw [hasPre_fence_nl]; simp)]
    show pySplitGo fenceList (f + 2 + 1) (fenceList ++ []) ('\n' :: acc) = _
    rw [pySplitGo_fence_head, pySplitGo_nil_input]
    simp
  | cons c S' ih =>
    intro fuel acc hfuel h
    rw [subIn, Bool.or_eq_false_iff] at h
    cases fuel with
    | zero => simp at hfuel
    | succ f =>
      show pySplitGo fenceList (f + 1) (c :: (S' ++ '\n' :: fenceList)) acc = _
      rw [pySplitGo_fence_cons,
        if_neg (by rw [hasPre_fence_straddle c S' fenceList h.1]; simp),
        ih f (c :: acc) (by simpa using hfuel) h.2]
      simp

/-- Stripping is unaffected by a leading and a trailing newline. -/
theorem pyStripL_nl_wrap (X : List Char) :
    pyStripL ('\n' :: (X ++ ['\n'])) = pyStripL X := by
  unfold pyStripL
  rw [List.dropWhile_cons, if_pos (by rw [show pyWs '\n' = true from rfl]),
    List.dropWhile_append]
  split
  · rename_i hE
    rw [List.isEmpty_iff] at hE
    rw [hE]
    rfl
  · rename_i hNE
    rw [List.reverse_append, List.reverse_singleton, List.singleton_append,
      List.dropWhile_cons, if_pos (by rw [show pyWs '\n' = true from rfl])]

/-- The JSON fence does not start at the first backtick of a plain-fence
opener (the fourth character there is a newline, not `j`). -/
theorem hasPre_fenceJson_open3 (rest : List Char) :
    hasPre fenceJsonList (btChar :: btChar :: btChar :: '\n' :: rest) = false := by
  show (decide (btChar = btChar) && (decide (btChar = btChar) && (decide (btChar = btChar) &&
    (decide ('j' = '\n') && hasPre ['s', 'o', 'n'] rest)))) = false
  rw [show decide ('j' = '\n') = false from rfl]
  simp

/-- ... nor at the second backtick. -/
theorem hasPre_fenceJson_open2 (rest : List Char) :
    hasPre fenceJsonList (btChar :: btChar :: '\n' :: rest) = false := by
  show (decide (btChar = btChar) && (decide (btChar = btChar) &&
    (decide (btChar = '\n') && hasPre ['j', 's', 'o', 'n'] rest))) = false
  rw [show decide (btChar = '\n') = false from rfl]
  simp

/-- ... nor at the third backtick. -/
theorem hasPre_fenceJson_open1 (rest : List Char) :
    hasPre fenceJsonList (btChar :: '\n' :: rest) = false := by
  show (decide (btChar = btChar) &&
    (decide (btChar = '\n') && hasPre ['o', 'n'] rest)) = false
  rw [show decide (btChar = '\n') = false from rfl]
  simp

/-- A plain-fenced fence-free payload contains no JSON fence anywhere. -/
theorem subIn_fenceJson_plain_full (S : List Char) (h : subIn fenceList S = false) :
    subIn fenceJsonList (fenceList ++ ('\n' :: (S ++ '\n' :: fenceList))) = false := by
  show subIn fenceJsonList
    (btChar :: btChar :: btChar :: '\n' :: (S ++ '\n' :: fenceList)) = false
  rw [subIn, subIn, subIn, subIn, hasPre_fenceJson_open3, hasPre_fenceJson_open2,
    hasPre_fenceJson_open1, hasPre_fenceJson_nl, subIn_fenceJson_before_close S h]
  rfl

/-- Stripping the JSON code fence from a fenced fence-free payload recovers
the payload wrapped in single newlines. -/
theorem stripCodeFences_json_fence (S : String) (h : subIn fenceList S.data = false) :
    stripCodeFences ("```json\n" ++ S ++ "\n```") = ⟨'\n' :: (S.data ++ ['\n'])⟩ := by
  have hdata : ("```json\n" ++ S ++ "\n```").data
      = fenceJsonList ++ ('\n' :: (S.data ++ '\n' :: fenceList)) := by
    rw [String.data_append, String.data_append,
      show "```json\n".data = fenceJsonList ++ ['\n'] from rfl,
      show "\n```".data = '\n' :: fenceList from rfl]
    simp
  have hsub1 : subIn fenceJsonList ('\n' :: (S.data ++ '\n' :: fenceList)) = false := by
    rw [subIn, hasPre_fenceJson_nl, subIn_fenceJson_before_close S.data h]
    rfl
  have hsplit1 : pySplit fenceJsonList
      (fenceJsonList ++ ('\n' :: (S.data ++ '\n' :: fenceList)))
      = [[], '\n' :: (S.data ++ '\n' :: fenceList)] := by
    unfold pySplit
    rw [show (fenceJsonList ++ ('\n' :: (S.data ++ '\n' :: fenceList))).length
        = (6 + ('\n' :: (S.data ++ '\n' :: fenceList)).length) + 1 from by
      simp only [List.length_append, List.length_cons, List.length_nil,
        fenceJsonList, fenceList]
      omega]
    rw [pySplitGo_fenceJson_head,
      pySplitGo_no_match fenceJsonList ('\n' :: (S.data ++ '\n' :: fenceList)) _ []
        (by simp) hsub1]
    simp
  have hsplit2 : pySplit fenceList ('\n' :: (S.data ++ '\n' :: fenceList))
      = ['\n' :: (S.data ++ ['\n']), []] := by
    unfold pySplit
    rw [show ('\n' :: (S.data ++ '\n' :: fenceList)).length
        = (S.data.length + 4) + 1 from by simp [fenceList]]
    rw [pySplitGo_fence_cons, if_neg (by simp [hasPre_fence_nl]),
      pySplitGo_until_close S.data (S.data.length + 4) ['\n'] (by simp [fenceList])
        h]
    simp
  unfold stripCodeFences
  rw [fenceJson_data, fence_data, hdata,
    if_pos (subIn_of_hasPre (hasPre_append_self _ _)), hsplit1]
  show (⟨(pySplit fenceList ('\n' :: (S.data ++ '\n' :: fenceList))).getD 0 []⟩ : String)
    = _
  rw [hsplit2]
  rfl

/-- Stripping the plain code fence from a fenced fence-free payload recovers
the payload wrapped in single newlines. -/
theorem stripCodeFences_plain_fence (S : String) (h : subIn fenceList S.data = false) :
    stripCodeFences ("```\n" ++ S ++ "\n```") = ⟨'\n' :: (S.data ++ ['\n'])⟩ := by
  have hdata : ("```\n" ++ S ++ "\n```").data
      = fenceList ++ ('\n' :: (S.data ++ '\n' :: fenceList)) := by
    rw [String.data_append, String.data_append,
      show "```\n".data = fenceList ++ ['\n'] from rfl,
      show "\n```".data = '\n' :: fenceList from rfl]
    simp
  have hsplit1 : pySplit fenceList (fenceList ++ ('\n' :: (S.data ++ '\n' :: fenceList)))
      = [[], '\n' :: (S.data ++ ['\n']), []] := by
    unfold pySplit
    rw [show (fenceList ++ ('\n' :: (S.data ++ '\n' :: fenceList))).length
        = ((S.data.length + 6) + 1) + 1 from by
      simp only [List.length_append, List.length_cons, List.length_nil, fenceList]
      omega]
    rw [pySplitGo_fence_head, pySplitGo_fence_cons, if_neg (by simp [hasPre_fence_nl]),
      pySplitGo_until_close S.data (S.data.length + 6) ['\n'] (by simp [fenceList]) h]
    simp
  have hsub2 : subIn fenceList ('\n' :: (S.data ++ ['\n'])) = false := by
    rw [subIn, hasPre_fence_nl, subIn_fence_append_nl S.data h]
    rfl
  have hsplit2 : pySplit fenceList ('\n' :: (S.data ++ ['\n']))
      = ['\n' :: (S.data ++ ['\n'])] := by
    unfold pySplit
    rw [pySplitGo_no_match fenceList _ _ [] (Nat.le_refl _) hsub2]
    simp
  unfold stripCodeFences
  rw [fenceJson_data, fence_data, hdata,
    if_neg (by simp [subIn_fenceJson_plain_full S.data h]),
    if_pos (subIn_of_hasPre (hasPre_append_self _ _)), hsplit1]
  show (⟨(pySplit fenceList ('\n' :: (S.data ++ ['\n']))).getD 0 []⟩ : String) = _
  rw [hsplit2]
  rfl

/-- A fence-free response passes through `stripCodeFences` unchanged. -/
theorem stripCodeFences_unfenced (S : String) (h : subIn fenceList S.data = false) :
    stripCodeFences S = S := by
  unfold stripCodeFences
  rw [fenceJson_data, fence_data,
    if_neg (by simp [subIn_fenceJson_of_no_fence S.data h]),
    if_neg (by simp [h])]

/-! ## C9: fenced and unfenced planner responses -/

/-- C9 (amended): for every JSON string `S` that contains no code-fence
marker `\x60\x60\x60` and parses as JSON after stripping, the planner's
response parser produces the same result for `S` wrapped in
`\x60\x60\x60json ... \x60\x60\x60` or `\x60\x60\x60 ... \x60\x60\x60`
markup as for `S` alone. -/
theorem c9_fence_parse_equivalence (S : String)
    (hfree : subIn "```".data S.data = false)
    (hjson : ∃ v, jsonLoads (pyStrip S) = some v) :
    parseLLMResponse ("```json\n" ++ S ++ "\n```") = parseLLMResponse S ∧
    parseLLMResponse ("```\n" ++ S ++ "\n```") = parseLLMResponse S := by
  obtain ⟨v, hv⟩ := hjson
  rw [fence_data] at hfree
  have hstrip : pyStrip (⟨'\n' :: (S.data ++ ['\n'])⟩ : String) = pyStrip S := by
    show (⟨pyStripL ('\n' :: (S.data ++ ['\n']))⟩ : String) = ⟨pyStripL S.data⟩
    rw [pyStripL_nl_wrap]
  constructor
  · unfold parseLLMResponse
    rw [stripCodeFences_json_fence S hfree, stripCodeFences_unfenced S hfree, hstrip, hv]
  · unfold parseLLMResponse
    rw [stripCodeFences_plain_fence S hfree, stripCodeFences_unfenced S hfree, hstrip, hv]

/-- C9 (counterexample): a valid JSON action object whose `reasoning` string
contains "```" parses differently fenced and unfenced — both go through the
fence-stripping split at the embedded backticks, fail to JSON-decode, and
fall back to WAIT actions whose reasonings quote the *different* raw
responses. -/
theorem c9_counterexample :
    jsonLoads (pyStrip fencedReasoningContent)
        = some (.obj [("action", .str "wait"), ("reasoning", .str "x``` y")]) ∧
    parseLLMResponse ("```json\n" ++ fencedReasoningContent ++ "\n```")
        ≠ parseLLMResponse fencedReasoningContent := by
  refine ⟨rfl, fun h => ?_⟩
  exact absurd (congrArg reasoningText h) (by decide)

/-- Witness for `c9_fence_parse_equivalence` at a concrete backtick-free
JSON action. -/
theorem c9_witness :
    parseLLMResponse ("```json\n" ++ "\x7b\"action\": \"tap\"\x7d" ++ "\n```")
        = parseLLMResponse "\x7b\"action\": \"tap\"\x7d" ∧
    parseLLMResponse ("```\n" ++ "\x7b\"action\": \"tap\"\x7d" ++ "\n```")
        = parseLLMResponse "\x7b\"action\": \"tap\"\x7d" :=
  c9_fence_parse_equivalence "\x7b\"action\": \"tap\"\x7d" (by decide)
    ⟨.obj [("action", .str "tap")], rfl⟩

end Droidwork
